import Mathlib

/-!
Verification of the TrainPMA backend's scoring, progress-merge and reward
logic, as a shallow embedding of `backend/app` in Lean.

Conventions of the embedding:
* Python `str` is modelled as Lean `String` (a list of characters); the
  Python string methods used by the code (`strip`, `upper`, `lower`,
  `split`, `replace`, `startswith`, `in`) are re-implemented below on the
  character list, restricted to ASCII case behaviour (the Unicode special
  cases of `str.upper`, such as U+017F, are outside the model).
* A Python value that may be a string or a list of strings (the correct
  answers handled by `quiz_service`) is the inductive `PyVal`; Python
  `None` is `Option.none` around it.
* `json.loads` is an external library call; it is taken as an explicit
  parameter `jsonParse : String → Option PyVal` of the functions that use
  it (`None` result = `JSONDecodeError`).  No claim below depends on its
  behaviour.
* Spreadsheet reads are passed in as explicit arguments (lists of rows,
  lookup functions); spreadsheet writes are returned as values.
  Timestamps and generated UUIDs are dropped from the model.
-/

namespace TrainPMA

/-- A value handled by the quiz service: a string, or a list of strings
(the structured form of a multi-answer). -/
inductive PyVal where
  | str (s : String)
  | list (l : List String)
deriving DecidableEq

/-- Python `s.strip()` on a character list: drop whitespace from both ends. -/
def pyStripList (l : List Char) : List Char :=
  ((l.dropWhile Char.isWhitespace).reverse.dropWhile Char.isWhitespace).reverse

/-- Python `s.strip()`. -/
def pyStrip (s : String) : String := String.mk (pyStripList s.data)

/-- Python `s.upper()` (ASCII). -/
def pyUpper (s : String) : String := String.mk (s.data.map Char.toUpper)

/-- Python `s.lower()` (ASCII). -/
def pyLower (s : String) : String := String.mk (s.data.map Char.toLower)

/-- Python `s.split(sep)` for a one-character separator, on character lists. -/
def pySplitAux (sep : Char) : List Char → List Char → List (List Char)
  | [], acc => [acc.reverse]
  | c :: rest, acc =>
      if c = sep then acc.reverse :: pySplitAux sep rest []
      else pySplitAux sep rest (c :: acc)

/-- Python `s.split(sep)` for a one-character separator. -/
def pySplit (s : String) (sep : Char) : List String :=
  (pySplitAux sep s.data []).map String.mk

/-- Python `s.replace(old, new)` for one-character `old`/`new`. -/
def pyReplaceChar (s : String) (old new : Char) : String :=
  String.mk (s.data.map (fun c => if c = old then new else c))

/-- Python `s.replace(" ", "")`: remove every space. -/
def pyRemoveSpaces (s : String) : String :=
  String.mk (s.data.filter (fun c => c ≠ ' '))

/-- Python `s.startswith(c)` for a one-character pattern. -/
def pyStartsWith (s : String) (c : Char) : Bool :=
  s.data.head? = some c

/-- The uppercase alphabet used by the answer parser
(`'ABCDEFGHIJKLMNOPQRSTUVWXYZ'`). -/
def azChars : List Char := "ABCDEFGHIJKLMNOPQRSTUVWXYZ".data

/-- Python `len(s) == 1 and s.upper() in 'ABCDEFGHIJKLMNOPQRSTUVWXYZ'`. -/
def isSingleLetter (s : String) : Bool :=
  match s.data with
  | [c] => azChars.contains c.toUpper
  | _ => false

/-- Python `s.isalpha()` (ASCII restriction; every use in the source is
conjoined with an A–Z check that confines it to ASCII anyway). -/
def pyIsAlpha (s : String) : Bool :=
  !s.data.isEmpty && s.data.all Char.isAlpha

/-- Python `str(v)` for a `PyVal`; for a list this is `repr`-style
(`['a', 'b']`, always single-quoted). -/
def pyStrOf : PyVal → String
  | PyVal.str s => s
  | PyVal.list l =>
      "[" ++ String.intercalate ", "
        (l.map (fun x => String.mk (Char.ofNat 39 :: x.data ++ [Char.ofNat 39]))) ++ "]"

/-- `QuizService._letter_to_option`: map a single letter to the option at
index `ord(letter.upper()) - ord('A')`, or return the letter when the index
is out of range or no options are given.  (`ord` demands a one-character
string; every call site guarantees that, so other shapes return the letter.) -/
def letter_to_option (letter : String) (options : List String) : String :=
  match options, letter.data with
  | [], _ => letter
  | _ :: _, [c] =>
      let index : Int := (c.toUpper.toNat : Int) - 65
      if 0 ≤ index ∧ index < (options.length : Int) then
        options.getD index.toNat ""
      else letter
  | _ :: _, _ => letter

/-- `QuizService._convert_letters_to_options`: strip each element and map
single A–Z letters through `letter_to_option`, keeping other elements
literal; with no options the input list is returned unchanged. -/
def convert_letters_to_options (letters : List String) (options : List String) :
    List String :=
  if options = [] then letters
  else
    letters.map (fun letter =>
      let ls := pyStrip letter
      if isSingleLetter ls then letter_to_option ls options else ls)

/-- Post-processing of a successful JSON parse inside
`_parse_correct_answer`: `if options and isinstance(parsed, list)`, map the
letters; otherwise return the parsed value unchanged. -/
def jsonPost (parsed : PyVal) (options : List String) : PyVal :=
  match parsed, options with
  | PyVal.list l, _ :: _ => PyVal.list (convert_letters_to_options l options)
  | v, _ => v

/-- The letter-format section of `QuizService._parse_correct_answer`
(everything after the JSON attempt): single letter, comma-separated
letters, contiguous letters — all only when `options` is non-empty —
else the trimmed literal string. -/
def letterFormat (ca_str : String) (options : List String) : PyVal :=
  if options = [] then PyVal.str ca_str
  else if isSingleLetter ca_str then PyVal.str (letter_to_option ca_str options)
  else if ca_str.data.contains ',' then
    PyVal.list (convert_letters_to_options ((pySplit ca_str ',').map pyStrip) options)
  else if pyIsAlpha ca_str && ca_str.data.all (fun c => azChars.contains c.toUpper) then
    PyVal.list (convert_letters_to_options (ca_str.data.map (fun c => String.mk [c])) options)
  else PyVal.str ca_str

/-- `QuizService._parse_correct_answer`: canonicalize a stored
correct-answer representation.  Already-structured values pass through;
strings starting with `[` or a left brace go through JSON (retrying with
single quotes replaced by double quotes), falling back to the letter-format
rules. -/
def parse_correct_answer (jsonParse : String → Option PyVal)
    (ca : Option PyVal) (options : List String) : Option PyVal :=
  match ca with
  | none => none
  | some (PyVal.list l) => some (PyVal.list l)
  | some (PyVal.str s0) =>
      let ca_str := pyStrip s0
      if pyStartsWith ca_str '[' || pyStartsWith ca_str (Char.ofNat 123) then
        match jsonParse ca_str with
        | some parsed => some (jsonPost parsed options)
        | none =>
            match jsonParse (pyReplaceChar ca_str (Char.ofNat 39) (Char.ofNat 34)) with
            | some parsed => some (jsonPost parsed options)
            | none => some (letterFormat ca_str options)
      else some (letterFormat ca_str options)

/-- `QuizService.check_answer`: the incremental path's equivalence check,
applied to the raw stored correct answer. -/
def check_answer (user_answer correct_answer : String) (question_type : String) :
    Bool :=
  if question_type = "single_choice" then
    pyUpper (pyStrip user_answer) == pyUpper (pyStrip correct_answer)
  else if question_type = "multiple_choice" then
    decide ((pySplit (pyRemoveSpaces user_answer) ',').toFinset
      = (pySplit (pyRemoveSpaces correct_answer) ',').toFinset)
  else if question_type = "fill_blank" then
    ((pySplit correct_answer '|').map (fun a => pyLower (pyStrip a))).contains
      (pyLower (pyStrip user_answer))
  else false

/-- `QuizService._check_answer_flexible`: the batch grader's equivalence
check, applied to the canonicalized correct answer. -/
def check_answer_flexible (user_answer correct_answer : Option PyVal)
    (question_type : String) : Bool :=
  match user_answer, correct_answer with
  | none, _ => false
  | some _, none => false
  | some ua, some ca =>
      if question_type = "single_choice" then
        pyUpper (pyStrip (pyStrOf ua)) == pyUpper (pyStrip (pyStrOf ca))
      else if question_type = "multiple_choice" then
        let user_set :=
          match ua with
          | PyVal.list l => ((l.map (fun a => pyUpper (pyStrip a))).toFinset)
          | PyVal.str _ =>
              (pySplit (pyUpper (pyRemoveSpaces (pyStrOf ua))) ',').toFinset
        let correct_set :=
          match ca with
          | PyVal.list l => ((l.map (fun a => pyUpper (pyStrip a))).toFinset)
          | PyVal.str _ =>
              (pySplit (pyUpper (pyRemoveSpaces (pyStrOf ca))) ',').toFinset
        decide (user_set = correct_set)
      else if question_type = "fill_blank" then
        let user_str := pyLower (pyStrip (pyStrOf ua))
        match ca with
        | PyVal.list l => (l.map (fun a => pyLower (pyStrip a))).contains user_str
        | PyVal.str s =>
            ((pySplit s '|').map (fun a => pyLower (pyStrip a))).contains user_str
      else false

/-! ### Grading engine (`quiz_service.grade_quiz`, `calculate_final_score`) -/

/-- Python `round(x)` to an integer: round half to even. -/
def roundHalfEven (x : ℚ) : Int :=
  let f := ⌊x⌋
  let r := x - (f : ℚ)
  if r < 1/2 then f
  else if 1/2 < r then f + 1
  else if f % 2 = 0 then f else f + 1

/-- Python `round(x, 2)`: round to two decimal places, half to even
(the binary-float representation effects of CPython are outside the
model; arithmetic is exact rationals). -/
def pyRound2 (x : ℚ) : ℚ := (roundHalfEven (x * 100) : ℚ) / 100

/-- A row of the Questions sheet as seen by the quiz service
(`score` is read with `int(q.get('score', 5))`). -/
structure QuestionRow where
  question_id : String
  question_type : String := "single_choice"
  correct_answer : Option PyVal := none
  options : List String := []
  score : Option Int := none
deriving DecidableEq

/-- A row of the Surveys sheet (`pass_score` read with
`int(survey.get('pass_score', 60))`). -/
structure SurveyRow where
  pass_score : Option Int := none
deriving DecidableEq

/-- One element of the `answers` list passed to `grade_quiz`
(`answer.get('question_id')`, `answer.get('answer')`). -/
structure AnswerItem where
  question_id : Option String := none
  answer : Option PyVal := none
deriving DecidableEq

/-- One element of `grade_quiz`'s `results` list. -/
structure GradeEntry where
  question_id : String
  is_correct : Bool
  score : Int
  correct_answer : Option PyVal
deriving DecidableEq

/-- The dictionary `{q['question_id']: q for q in questions}`:
lookup with the last binding winning on duplicate ids. -/
def qmapLookup (questions : List QuestionRow) (qid : String) : Option QuestionRow :=
  (questions.filter (fun q => q.question_id == qid)).getLast?

/-- The grading loop of `grade_quiz`: accumulate the total score and the
per-question results over the submitted answers, skipping answers whose
question id is absent from the question map. -/
def gradeLoop (jsonParse : String → Option PyVal) (questions : List QuestionRow) :
    List AnswerItem → Int × List GradeEntry
  | [] => (0, [])
  | a :: rest =>
      let acc := gradeLoop jsonParse questions rest
      match a.question_id with
      | none => acc
      | some qid =>
          match qmapLookup questions qid with
          | none => acc
          | some q =>
              let corr := parse_correct_answer jsonParse q.correct_answer q.options
              let ic := check_answer_flexible a.answer corr q.question_type
              let qscore := q.score.getD 5
              ((if ic then qscore else 0) + acc.1,
               { question_id := qid, is_correct := ic,
                 score := if ic then qscore else 0, correct_answer := corr } :: acc.2)

/-- The result record of `grade_quiz`. -/
structure GradeResult where
  total_score : Int
  max_score : Int
  percentage : ℚ
  passed : Bool
  results : List GradeEntry
deriving DecidableEq

/-- The effective pass score:
`int(survey.get('pass_score', 60)) if survey else 60`. -/
def effPassScore (survey : Option SurveyRow) : Int :=
  match survey with
  | some s => s.pass_score.getD 60
  | none => 60

/-- `QuizService.grade_quiz`: grade a whole submission.  `none` models the
`ValueError` raised when the survey has no questions. -/
def grade_quiz (jsonParse : String → Option PyVal) (questions : List QuestionRow)
    (survey : Option SurveyRow) (answers : List AnswerItem) : Option GradeResult :=
  if questions = [] then none
  else
    let max_score : Int := (questions.map (fun q => q.score.getD 5)).sum
    let graded := gradeLoop jsonParse questions answers
    let percentage : ℚ :=
      if max_score > 0 then pyRound2 ((graded.1 : ℚ) / (max_score : ℚ) * 100) else 0
    some { total_score := graded.1, max_score := max_score,
           percentage := percentage,
           passed := decide (percentage ≥ (effPassScore survey : ℚ)),
           results := graded.2 }

/-- A row of the Responses sheet as returned by
`sheets_service.get_user_responses` (already filtered to one user and one
survey; `is_correct` already converted to a boolean). -/
structure ResponseRow where
  score_earned : Option Int := none
  is_correct : Bool := false
  attempt : Option Int := none
  time_spent_seconds : Option Int := none
deriving DecidableEq

/-- The result record of `calculate_final_score`. -/
structure FinalScore where
  total_score : Int
  max_score : Int
  correct_count : Int
  wrong_count : Int
  percentage : ℚ
  duration_seconds : Int
deriving DecidableEq

/-- `QuizService.calculate_final_score`: sum the responses recorded for
`attempt_number`, with `max_score` taken over the survey's full question
bank (the `save_score` side effect and the returned `score_id` are not
modelled). -/
def calculate_final_score (responses : List ResponseRow)
    (questions : List QuestionRow) (attempt_number : Int) : FinalScore :=
  let rs := responses.filter (fun r => r.attempt.getD 1 == attempt_number)
  let total_score := (rs.map (fun r => r.score_earned.getD 0)).sum
  let correct_count : Int := rs.countP (fun r => r.is_correct)
  let max_score := (questions.map (fun q => q.score.getD 5)).sum
  let duration := (rs.map (fun r => r.time_spent_seconds.getD 0)).sum
  { total_score := total_score, max_score := max_score,
    correct_count := correct_count,
    wrong_count := (rs.length : Int) - correct_count,
    percentage :=
      if max_score ≠ 0 then pyRound2 ((total_score : ℚ) / (max_score : ℚ) * 100) else 0,
    duration_seconds := duration }

/-! ### Progress reconciliation (`routes/progress._merge_progress` and the
`/sync` save path through `progress_service`) -/

/-- Python `int(d.get(k, dflt) or dflt)` on an integer-valued field:
the default replaces both a missing key and a falsy (zero) value. -/
def pyOrInt (v : Option Int) (dflt : Int) : Int :=
  match v with
  | none => dflt
  | some x => if x = 0 then dflt else x

/-- A wrong-question entry.  The merge only inspects `q.get('id')`; the
rest of the dictionary is carried opaquely as `rest`. -/
structure WrongQ where
  id : Option String
  rest : String
deriving DecidableEq

/-- The dictionary `{q.get('id'): q for q in l}` as a lookup: the last
entry with a given id wins. -/
def wrongDict (l : List WrongQ) (k : Option String) : Option WrongQ :=
  (l.filter (fun q => q.id == k)).getLast?

/-- A JSON-object field `{syllabusId: xp}` as a lookup on its entry list:
the last entry with a given key wins (keys of a parsed JSON object are
unique, so this is the plain dictionary lookup). -/
def xpDict (l : List (String × Int)) (k : String) : Option Int :=
  ((l.filter (fun e => e.1 == k)).getLast?).map (fun e => e.2)

/-- A client or server progress snapshot as the Python dict that
`_merge_progress` receives: every field may be absent (`none`). -/
structure ProgressDict where
  totalXP : Option Int := none
  totalReadingTime : Option Int := none
  hearts : Option Int := none
  maxHearts : Option Int := none
  currentChapter : Option Int := none
  currentSection : Option Int := none
  dailyGoalMinutes : Option Int := none
  streak : Option Int := none
  lastReadDate : Option String := none
  chaptersCompleted : Option (List String) := none
  achievements : Option (List String) := none
  wordsLearned : Option (List String) := none
  onboardingCompleted : Option Bool := none
  wrongQuestions : Option (List WrongQ) := none
  xpBySyllabus : Option (List (String × Int)) := none
  coursesCompleted : Option (List String) := none
  quizzesPassed : Option Int := none
  quizStreak : Option Int := none
  lastLoginRewardDate : Option String := none
  firstPassedQuizzes : Option (List String) := none
  firstLoginRewardClaimed : Option Bool := none

/-- The merged snapshot produced by `_merge_progress`.  Python builds the
set-valued fields as `list(set(...))` (iteration order unspecified) and the
map-valued fields as dicts; they are modelled as a `Finset` and as lookup
functions respectively. -/
structure MergedProgress where
  totalXP : Int
  totalReadingTime : Int
  hearts : Int
  maxHearts : Int
  currentChapter : Int
  currentSection : Int
  dailyGoalMinutes : Int
  streak : Int
  lastReadDate : Option String
  chaptersCompleted : Finset String
  achievements : Finset String
  wordsLearned : Finset String
  onboardingCompleted : Bool
  wrongQuestions : Option String → Option WrongQ
  xpBySyllabus : String → Option Int

/-- `routes/progress._merge_progress`, field for field. -/
def merge_progress (server client : ProgressDict) : MergedProgress :=
  let server_wrong := server.wrongQuestions.getD []
  let client_wrong := client.wrongQuestions.getD []
  let server_xp := server.xpBySyllabus.getD []
  let client_xp := client.xpBySyllabus.getD []
  { totalXP := max (pyOrInt server.totalXP 0) (pyOrInt client.totalXP 0)
    totalReadingTime :=
      max (pyOrInt server.totalReadingTime 0) (pyOrInt client.totalReadingTime 0)
    hearts := pyOrInt client.hearts 5
    maxHearts := pyOrInt client.maxHearts 5
    currentChapter := pyOrInt client.currentChapter 1
    currentSection := pyOrInt client.currentSection 0
    dailyGoalMinutes := pyOrInt client.dailyGoalMinutes 10
    streak := pyOrInt client.streak 0
    lastReadDate := client.lastReadDate
    chaptersCompleted :=
      (server.chaptersCompleted.getD []).toFinset ∪ (client.chaptersCompleted.getD []).toFinset
    achievements :=
      (server.achievements.getD []).toFinset ∪ (client.achievements.getD []).toFinset
    wordsLearned :=
      (server.wordsLearned.getD []).toFinset ∪ (client.wordsLearned.getD []).toFinset
    onboardingCompleted :=
      server.onboardingCompleted.getD false || client.onboardingCompleted.getD false
    wrongQuestions := fun k =>
      match wrongDict client_wrong k with
      | some v => some v
      | none => wrongDict server_wrong k
    xpBySyllabus := fun k =>
      if (server_xp.map (fun e => e.1)).contains k
          || (client_xp.map (fun e => e.1)).contains k then
        some (max ((xpDict server_xp k).getD 0) ((xpDict client_xp k).getD 0))
      else none }

/-- A complete (every-field-present) snapshot: the shape a valid
`UserProgress` row has after `_row_to_progress`. -/
structure FullProgress where
  totalXP : Int
  totalReadingTime : Int
  hearts : Int
  maxHearts : Int
  currentChapter : Int
  currentSection : Int
  dailyGoalMinutes : Int
  streak : Int
  lastReadDate : Option String
  chaptersCompleted : List String
  achievements : List String
  wordsLearned : List String
  onboardingCompleted : Bool
  wrongQuestions : List WrongQ
  xpBySyllabus : List (String × Int)
  coursesCompleted : List String
  quizzesPassed : Int
  quizStreak : Int
  lastLoginRewardDate : Option String
  firstPassedQuizzes : List String
  firstLoginRewardClaimed : Bool

/-- View a complete snapshot as the dict handed to `_merge_progress`. -/
def FullProgress.toDict (p : FullProgress) : ProgressDict :=
  { totalXP := some p.totalXP
    totalReadingTime := some p.totalReadingTime
    hearts := some p.hearts
    maxHearts := some p.maxHearts
    currentChapter := some p.currentChapter
    currentSection := some p.currentSection
    dailyGoalMinutes := some p.dailyGoalMinutes
    streak := some p.streak
    lastReadDate := p.lastReadDate
    chaptersCompleted := some p.chaptersCompleted
    achievements := some p.achievements
    wordsLearned := some p.wordsLearned
    onboardingCompleted := some p.onboardingCompleted
    wrongQuestions := some p.wrongQuestions
    xpBySyllabus := some p.xpBySyllabus
    coursesCompleted := some p.coursesCompleted
    quizzesPassed := some p.quizzesPassed
    quizStreak := some p.quizStreak
    lastLoginRewardDate := p.lastLoginRewardDate
    firstPassedQuizzes := some p.firstPassedQuizzes
    firstLoginRewardClaimed := some p.firstLoginRewardClaimed }

/-- The snapshot persisted by the `/sync` route and read back by
`_row_to_progress`: field values as stored in the UserProgress row. -/
structure StoredProgress where
  totalXP : Int
  totalReadingTime : Int
  hearts : Int
  maxHearts : Int
  currentChapter : Int
  currentSection : Int
  dailyGoalMinutes : Int
  streak : Int
  lastReadDate : Option String
  chaptersCompleted : Finset String
  achievements : Finset String
  wordsLearned : Finset String
  onboardingCompleted : Bool
  wrongQuestions : Option String → Option WrongQ
  xpBySyllabus : String → Option Int
  coursesCompleted : List String
  quizzesPassed : Int
  quizStreak : Int
  lastLoginRewardDate : Option String
  firstPassedQuizzes : List String
  firstLoginRewardClaimed : Bool

/-- The `/sync` route's write path: `merged = _merge_progress(server,
client)` followed by `progress_service.save_user_progress(user, merged)`.
`_progress_to_row` serializes `merged.get(column, default)` for every
column of the sheet, so each column the merge did not produce is written
with its default (`[]`, `0`, `''` — read back as `none` — or `FALSE`); the
JSON round-trip through the cell is elided. -/
def sync_saved_progress (server client : ProgressDict) : StoredProgress :=
  let m := merge_progress server client
  { totalXP := m.totalXP
    totalReadingTime := m.totalReadingTime
    hearts := m.hearts
    maxHearts := m.maxHearts
    currentChapter := m.currentChapter
    currentSection := m.currentSection
    dailyGoalMinutes := m.dailyGoalMinutes
    streak := m.streak
    lastReadDate := m.lastReadDate
    chaptersCompleted := m.chaptersCompleted
    achievements := m.achievements
    wordsLearned := m.wordsLearned
    onboardingCompleted := m.onboardingCompleted
    wrongQuestions := m.wrongQuestions
    xpBySyllabus := m.xpBySyllabus
    coursesCompleted := []
    quizzesPassed := 0
    quizStreak := 0
    lastLoginRewardDate := none
    firstPassedQuizzes := []
    firstLoginRewardClaimed := false }

/-! ### Badge issuance (`badge_service.issue_or_update_badge`) -/

/-- Python `int(x)` on a rational: truncation toward zero. -/
def pyInt (x : ℚ) : Int := if 0 ≤ x then ⌊x⌋ else ⌈x⌉

/-- The score-bearing fields of a CourseBadges row (ids, names and
timestamps are not modelled; `_row_to_badge` reads the numeric columns as
integers). -/
structure Badge where
  score : Int
  max_score : Int
  percentage : Int
  attempt_count : Int
deriving DecidableEq

/-- The result of `issue_or_update_badge`: the badge as stored after the
call, plus the `is_new` / `score_updated` flags. -/
structure BadgeResult where
  badge : Badge
  is_new : Bool
  score_updated : Bool
deriving DecidableEq

/-- `BadgeService.issue_or_update_badge` on the badge state for one
`(user, course)` pair: `existing` is the current row, if any. -/
def issue_or_update_badge (existing : Option Badge)
    (score max_score : Int) (percentage : ℚ) : BadgeResult :=
  match existing with
  | some old =>
      let new_attempt := old.attempt_count + 1
      if score > old.score then
        { badge := { score := score, max_score := max_score,
                     percentage := pyInt percentage, attempt_count := new_attempt },
          is_new := false, score_updated := true }
      else
        { badge := { old with attempt_count := new_attempt },
          is_new := false, score_updated := false }
  | none =>
      { badge := { score := score, max_score := max_score,
                   percentage := pyInt percentage, attempt_count := 1 },
        is_new := true, score_updated := true }

/-! ### Per-survey leaderboard (`sheets_service.get_leaderboard`) -/

/-- A row of the Scores sheet (numeric columns as read with `int(...)`). -/
structure ScoreRec where
  user_id : String
  survey_id : String
  total_score : Int
  max_score : Int
  correct_count : Int
  duration_seconds : Int
deriving DecidableEq

/-- A row of the Users sheet (name/company only). -/
structure UserRec where
  name : String := ""
  company : String := ""
deriving DecidableEq

/-- One leaderboard entry as returned by `get_leaderboard`. -/
structure LBEntry where
  rank : Nat
  user_id : String
  name : String
  company : String
  score : Int
  max_score : Int
  correct_count : Int
  duration_seconds : Int
deriving DecidableEq

/-- The replacement test of the dedup loop: the new record strictly
improves on the stored best (`total >` or equal total with `dur <`). -/
def lbBetter (s old : ScoreRec) : Bool :=
  s.total_score > old.total_score
    || (s.total_score == old.total_score
        && s.duration_seconds < old.duration_seconds)

/-- One step of the dedup loop over `survey_scores`: `user_best[uid] = s`
when the user is new or `s` improves on the stored best (the dict keeps
the key's original position, modelled by an in-place list update). -/
def updateBest (acc : List (String × ScoreRec)) (s : ScoreRec) :
    List (String × ScoreRec) :=
  if acc.any (fun kv => kv.1 == s.user_id) then
    acc.map (fun kv => if kv.1 == s.user_id && lbBetter s kv.2 then (kv.1, s) else kv)
  else acc ++ [(s.user_id, s)]

/-- The `user_best` dict built by `get_leaderboard`, as an association
list in insertion order. -/
def user_best (survey_scores : List ScoreRec) : List (String × ScoreRec) :=
  survey_scores.foldl updateBest []

/-- The sort key order of `get_leaderboard`:
`key=lambda x: (-total_score, duration_seconds)` ascending. -/
def lbRel (a b : ScoreRec) : Prop :=
  a.total_score > b.total_score
    ∨ (a.total_score = b.total_score ∧ a.duration_seconds ≤ b.duration_seconds)

instance : DecidableRel lbRel := fun a b => by unfold lbRel; infer_instance

instance : IsTotal ScoreRec lbRel where
  total a b := by unfold lbRel; omega

instance : IsTrans ScoreRec lbRel where
  trans a b c := by unfold lbRel; omega

/-- Build the ranked entries from the sorted, truncated best list
(`enumerate(sorted_scores[:limit])`, rank `i+1`). -/
def rankEntries (users : String → Option UserRec) :
    Nat → List ScoreRec → List LBEntry
  | _, [] => []
  | i, s :: rest =>
      { rank := i + 1, user_id := s.user_id,
        name := (match users s.user_id with | some u => u.name | none => "未知"),
        company := (match users s.user_id with | some u => u.company | none => ""),
        score := s.total_score, max_score := s.max_score,
        correct_count := s.correct_count,
        duration_seconds := s.duration_seconds } :: rankEntries users (i + 1) rest

/-- `sheets_service.get_leaderboard` as a function of the Scores rows and
the Users lookup (the TTL cache reads the same data and is elided).
`List.insertionSort` is a stable sort, like CPython's `sorted`. -/
def get_leaderboard (rows : List ScoreRec) (users : String → Option UserRec)
    (survey_id : String) (limit : Nat) : List LBEntry :=
  let survey_scores := rows.filter (fun r => r.survey_id == survey_id)
  let best := (user_best survey_scores).map (fun kv => kv.2)
  let sorted_scores := List.insertionSort lbRel best
  rankEntries users 0 (sorted_scores.take limit)

/-! ### Certificate batch issuance
(`certificate_service.issue_certificates_for_syllabus`) -/

/-- One element of a syllabus's `course_sequence`. -/
structure CourseSeqItem where
  course_id : Option String := none
deriving DecidableEq

/-- A syllabus row as returned by `syllabus_service.get_syllabus`. -/
structure SyllabusRow where
  name : String := ""
  course_sequence : List CourseSeqItem := []
deriving DecidableEq

/-- A course's quiz block (`course['quiz']`); an empty-string `survey_id`
is modelled as `none` (both are falsy where the code tests it). -/
structure QuizInfo where
  survey_id : Option String := none
  pass_score : Option Int := none
deriving DecidableEq

/-- A course row as returned by `course_service.get_course`; a falsy
`quiz` value is `none`. -/
structure CourseRow where
  title : String := ""
  quiz : Option QuizInfo := none
deriving DecidableEq

/-- One entry of the list built by `_get_syllabus_course_quizzes`. -/
structure CourseQuizEntry where
  course_id : String
  course_title : String
  survey_id : String
  pass_score : Int
deriving DecidableEq

/-- `CertificateService._get_syllabus_course_quizzes`: the quizzes of the
courses in the syllabus's sequence (skipping items without a course id, a
course, a quiz, or a truthy survey id). -/
def get_syllabus_course_quizzes (getCourse : String → Option CourseRow)
    (syllabus : SyllabusRow) : List CourseQuizEntry :=
  syllabus.course_sequence.filterMap (fun item =>
    match item.course_id with
    | none => none
    | some course_id =>
        match getCourse course_id with
        | none => none
        | some course =>
            match course.quiz with
            | none => none
            | some quiz =>
                match quiz.survey_id with
                | none => none
                | some survey_id =>
                    some { course_id := course_id, course_title := course.title,
                           survey_id := survey_id,
                           pass_score := quiz.pass_score.getD 60 })

/-- A user's progress row as seen by the certificate service
(`_get_all_user_progress` output; only the fields the service reads). -/
structure ProgressRow where
  user_id : String
  xpBySyllabus : List (String × Int) := []
  firstPassedQuizzes : List String := []
  coursesCompleted : List String := []
deriving DecidableEq

/-- `CertificateService._check_user_passed_all_quizzes`: every linked
quiz's survey id is in the user's `firstPassedQuizzes` set. -/
def check_user_passed_all_quizzes (course_quizzes : List CourseQuizEntry)
    (progress : ProgressRow) : Bool :=
  course_quizzes.all (fun quiz_info =>
    progress.firstPassedQuizzes.contains quiz_info.survey_id)

/-- Python `max(l, key=f)`: the first element with the maximal key. -/
def pyMaxBy (f : ScoreRec → Int) : List ScoreRec → Option ScoreRec
  | [] => none
  | x :: xs => some (xs.foldl (fun b s => if f s > f b then s else b) x)

/-- `CertificateService._get_best_score_from_cache`: the user's record
with the highest `total_score` for a survey, if any. -/
def get_best_score_from_cache (user_id survey_id : String)
    (all_scores : List ScoreRec) : Option ScoreRec :=
  pyMaxBy (fun s => s.total_score)
    (all_scores.filter (fun s => s.user_id == user_id && s.survey_id == survey_id))

/-- `CertificateService._calculate_user_quiz_total`: sum of the user's
best score and its max over all linked quizzes (quizzes never attempted
contribute nothing). -/
def calculate_user_quiz_total (user_id : String)
    (course_quizzes : List CourseQuizEntry) (all_scores : List ScoreRec) :
    Int × Int :=
  course_quizzes.foldl (fun acc quiz_info =>
    match get_best_score_from_cache user_id quiz_info.survey_id all_scores with
    | some best => (acc.1 + best.total_score, acc.2 + best.max_score)
    | none => acc) (0, 0)

/-- One eligible participant, before ranking. -/
structure Participant where
  user_id : String
  score : Int
  max_score : Int
  xp_earned : Int
  progress : ProgressRow
deriving DecidableEq

/-- The participant filter of `issue_certificates_for_syllabus`: syllabus
XP strictly positive and every linked quiz first-passed. -/
def eligible_participants (syllabus_id : String)
    (course_quizzes : List CourseQuizEntry) (all_progress : List ProgressRow)
    (all_scores : List ScoreRec) : List Participant :=
  all_progress.filterMap (fun p =>
    let syllabus_xp := (xpDict p.xpBySyllabus syllabus_id).getD 0
    if syllabus_xp > 0 then
      if check_user_passed_all_quizzes course_quizzes p then
        let totals := calculate_user_quiz_total p.user_id course_quizzes all_scores
        some { user_id := p.user_id, score := totals.1, max_score := totals.2,
               xp_earned := syllabus_xp, progress := p }
      else none
    else none)

/-- `participants.sort(key=..., reverse=True)` order: descending score. -/
def certRel (a b : Participant) : Prop := b.score ≤ a.score

instance : DecidableRel certRel := fun a b => by unfold certRel; infer_instance

instance : IsTotal Participant certRel where
  total a b := by unfold certRel; omega

instance : IsTrans Participant certRel where
  trans a b c := by unfold certRel; omega

/-- The per-course breakdown stored on a certificate. -/
structure CourseScore where
  name : String
  score : Int
  max_score : Int
  percentage : Int
  xp_earned : Int
deriving DecidableEq

/-- `CertificateService._get_course_details_for_syllabus`: course id →
(title, quiz survey id) for the courses of the sequence that exist. -/
def get_course_details_for_syllabus (getCourse : String → Option CourseRow)
    (syllabus : SyllabusRow) : List (String × (String × Option String)) :=
  syllabus.course_sequence.filterMap (fun item =>
    match item.course_id with
    | none => none
    | some course_id =>
        match getCourse course_id with
        | none => none
        | some course =>
            some (course_id, (course.title,
              (course.quiz.getD { : QuizInfo }).survey_id)))

/-- Dictionary lookup on the course-details list (last binding wins). -/
def detailLookup (details : List (String × (String × Option String)))
    (k : String) : Option (String × Option String) :=
  ((details.filter (fun e => e.1 == k)).getLast?).map (fun e => e.2)

/-- `CertificateService._get_user_course_scores`: best score, percentage
and display XP per course of the sequence (courses missing from the
details are skipped). -/
def get_user_course_scores (user_id : String) (syllabus : SyllabusRow)
    (details : List (String × (String × Option String)))
    (progress : ProgressRow) (all_scores : List ScoreRec)
    (questionsFor : String → List QuestionRow) :
    List (String × CourseScore) :=
  syllabus.course_sequence.filterMap (fun item =>
    match item.course_id with
    | none => none
    | some course_id =>
        match detailLookup details course_id with
        | none => none
        | some info =>
            let base_xp : Int :=
              if progress.coursesCompleted.contains course_id then 50 else 0
            match info.2 with
            | none =>
                some (course_id,
                  { name := info.1, score := 0, max_score := 0, percentage := 0,
                    xp_earned := base_xp })
            | some survey_id =>
                let best := get_best_score_from_cache user_id survey_id all_scores
                let sc : Int := match best with | some b => b.total_score | none => 0
                let mx : Int := match best with | some b => b.max_score | none => 0
                let pct : Int :=
                  if mx > 0 then roundHalfEven ((sc : ℚ) / (mx : ℚ) * 100) else 0
                let quiz_xp : Int :=
                  if progress.firstPassedQuizzes.contains survey_id then
                    ((questionsFor survey_id).length : Int) * 10
                  else 0
                some (course_id,
                  { name := info.1, score := sc, max_score := mx, percentage := pct,
                    xp_earned := base_xp + quiz_xp }))

/-- A certificate row (generated id and timestamp elided). -/
structure Certificate where
  user_id : String
  user_name : String
  user_company : String
  syllabus_id : String
  syllabus_name : String
  score : Int
  max_score : Int
  percentage : Int
  xp_earned : Int
  rank : Nat
  total_participants : Nat
  course_scores : List (String × CourseScore)
  issued_by : String
deriving DecidableEq

/-- The issuance loop (`enumerate(participants, 1)`): build one
certificate per ranked participant. -/
def certLoop (syllabus_id syllabus_name issued_by : String)
    (syllabus : SyllabusRow)
    (details : List (String × (String × Option String)))
    (all_scores : List ScoreRec) (questionsFor : String → List QuestionRow)
    (userName : String → Option String) (userCompany : String → String)
    (total_participants : Nat) :
    Nat → List Participant → List Certificate
  | _, [] => []
  | rank, participant :: rest =>
      { user_id := participant.user_id
        user_name := (userName participant.user_id).getD "未知用户"
        user_company := userCompany participant.user_id
        syllabus_id := syllabus_id
        syllabus_name := syllabus_name
        score := participant.score
        max_score := participant.max_score
        percentage :=
          if participant.max_score > 0 then
            roundHalfEven ((participant.score : ℚ) / (participant.max_score : ℚ) * 100)
          else 0
        xp_earned := participant.xp_earned
        rank := rank + 1
        total_participants := total_participants
        course_scores :=
          get_user_course_scores participant.user_id syllabus details
            participant.progress all_scores questionsFor
        issued_by := issued_by } ::
      certLoop syllabus_id syllabus_name issued_by syllabus details all_scores
        questionsFor userName userCompany total_participants (rank + 1) rest

/-- The summary part of `issue_certificates_for_syllabus`'s return value. -/
structure IssueResult where
  success : Bool
  certificates_issued : Nat := 0
  total_participants : Nat := 0
deriving DecidableEq

/-- `CertificateService.issue_certificates_for_syllabus`: returns the
result summary together with the Certificates sheet after the call
(deletions keep the other rows in order; new rows are appended). -/
def issue_certificates_for_syllabus
    (getSyllabus : String → Option SyllabusRow)
    (getCourse : String → Option CourseRow)
    (all_progress : List ProgressRow)
    (all_scores : List ScoreRec)
    (questionsFor : String → List QuestionRow)
    (userName : String → Option String)
    (userCompany : String → String)
    (certs : List Certificate)
    (syllabus_id issued_by : String) : IssueResult × List Certificate :=
  match getSyllabus syllabus_id with
  | none => ({ success := false }, certs)
  | some syllabus =>
      let syllabus_name := syllabus.name
      let course_quizzes := get_syllabus_course_quizzes getCourse syllabus
      if course_quizzes = [] then ({ success := false }, certs)
      else
        let participants :=
          eligible_participants syllabus_id course_quizzes all_progress all_scores
        if participants = [] then ({ success := false }, certs)
        else
          let sorted := List.insertionSort certRel participants
          let total_participants := participants.length
          let details := get_course_details_for_syllabus getCourse syllabus
          let remaining := certs.filter (fun c => !(c.syllabus_id == syllabus_id))
          let fresh :=
            certLoop syllabus_id syllabus_name issued_by syllabus details
              all_scores questionsFor userName userCompany total_participants 0 sorted
          ({ success := true, certificates_issued := fresh.length,
             total_participants := total_participants },
           remaining ++ fresh)

/-! ### Fixtures and proof-level definitions -/

/-- A trivial JSON parser (always failing); no claim depends on the JSON
branch, whose inputs start with `[` or a left brace. -/
def noJson : String → Option PyVal := fun _ => none

/-- A complete snapshot whose `hearts` counter is 0 (a user who ran out of
hearts); all other fields at their defaults. -/
def heartsZeroSnapshot : FullProgress :=
  { totalXP := 0, totalReadingTime := 0, hearts := 0, maxHearts := 5,
    currentChapter := 1, currentSection := 0, dailyGoalMinutes := 10,
    streak := 0, lastReadDate := none, chaptersCompleted := [],
    achievements := [], wordsLearned := [], onboardingCompleted := false,
    wrongQuestions := [], xpBySyllabus := [], coursesCompleted := [],
    quizzesPassed := 0, quizStreak := 0, lastLoginRewardDate := none,
    firstPassedQuizzes := [], firstLoginRewardClaimed := false }

/-- A server snapshot carrying reward state outside the merge table. -/
def serverWithRewards : ProgressDict :=
  { firstPassedQuizzes := some ["survey-1"],
    coursesCompleted := some ["course-1"],
    quizzesPassed := some 4, quizStreak := some 2,
    lastLoginRewardDate := some "2025-01-01",
    firstLoginRewardClaimed := some true }

/-- An unrelated pre-existing certificate (different syllabus). -/
def otherCert : Certificate :=
  { user_id := "u-1", user_name := "", user_company := "",
    syllabus_id := "other-syllabus", syllabus_name := "", score := 0,
    max_score := 0, percentage := 0, xp_earned := 0, rank := 1,
    total_participants := 1, course_scores := [], issued_by := "admin" }

/-- The invariant of the dedup loop: keys are distinct, every stored entry
is a processed record of its key's user that no processed record of the
same user improves on, and every processed user has an entry. -/
def BestInv (seen : List ScoreRec) (acc : List (String × ScoreRec)) : Prop :=
  (acc.map (fun kv => kv.1)).Nodup
  ∧ (∀ kv ∈ acc, kv.2.user_id = kv.1 ∧ kv.2 ∈ seen
      ∧ ∀ r ∈ seen, r.user_id = kv.1 → lbBetter r kv.2 = false)
  ∧ (∀ r ∈ seen, r.user_id ∈ acc.map (fun kv => kv.1))

/-- The two score rows of the spec's tie-break example: equal totals,
durations 45s and 30s. -/
def tieRows : List ScoreRec :=
  [{ user_id := "alice", survey_id := "s1", total_score := 10, max_score := 10,
     correct_count := 2, duration_seconds := 45 },
   { user_id := "bob", survey_id := "s1", total_score := 10, max_score := 10,
     correct_count := 2, duration_seconds := 30 }]


/-! ### Helper lemmas -/

theorem dropWhile_self_idem (p : Char → Bool) (l : List Char) :
    (l.dropWhile p).dropWhile p = l.dropWhile p := by
  induction l with
  | nil => simp
  | cons a t ih =>
      by_cases h : p a
      · simp [List.dropWhile_cons, h, ih]
      · simp [List.dropWhile_cons, h]

theorem dropWhile_head_not (p : Char → Bool) (l : List Char) :
    ∀ a t, l.dropWhile p = a :: t → p a = false := by
  induction l with
  | nil => intro a t h; simp at h
  | cons x xs ih =>
      intro a t h
      by_cases hx : p x
      · rw [List.dropWhile_cons, if_pos hx] at h
        exact ih a t h
      · rw [List.dropWhile_cons, if_neg hx] at h
        cases h
        simpa using hx

theorem dropWhile_append_singleton (p : Char → Bool) (a : Char)
    (h : p a = false) (xs : List Char) :
    (xs ++ [a]).dropWhile p = xs.dropWhile p ++ [a] := by
  induction xs with
  | nil => simp [List.dropWhile_cons, h]
  | cons x t ih =>
      by_cases hx : p x
      · simpa [List.dropWhile_cons, hx] using ih
      · simp [List.dropWhile_cons, hx]

theorem pyStripList_idem (l : List Char) :
    pyStripList (pyStripList l) = pyStripList l := by
  unfold pyStripList
  cases hA : l.dropWhile Char.isWhitespace with
  | nil => simp
  | cons a t =>
      have ha : Char.isWhitespace a = false :=
        dropWhile_head_not Char.isWhitespace l a t hA
      rw [List.reverse_cons, dropWhile_append_singleton Char.isWhitespace a ha,
        List.reverse_append]
      simp only [List.reverse_cons, List.reverse_nil, List.nil_append,
        List.singleton_append, List.reverse_reverse]
      rw [List.dropWhile_cons, if_neg (by simp [ha])]
      rw [List.reverse_cons, dropWhile_append_singleton Char.isWhitespace a ha,
        List.reverse_reverse, dropWhile_self_idem]
      simp

theorem pyStrip_idem (s : String) : pyStrip (pyStrip s) = pyStrip s :=
  congrArg String.mk (pyStripList_idem s.data)

theorem pyOrInt_zero (v : Option Int) : pyOrInt v 0 = v.getD 0 := by
  cases v with
  | none => rfl
  | some x =>
      by_cases h : x = 0
      · simp [pyOrInt, h]
      · simp [pyOrInt, h]

theorem xpDict_some_of_contains (l : List (String × Int)) (k : String)
    (h : (l.map (fun e => e.1)).contains k = true) :
    ∃ v, xpDict l k = some v := by
  have hmem : k ∈ l.map (fun e => e.1) := by
    rcases List.contains_iff_exists_mem_beq.mp h with ⟨a, ha, hb⟩
    rwa [show k = a from by simpa using hb]
  rcases List.mem_map.mp hmem with ⟨e, he, hk⟩
  have hf : e ∈ l.filter (fun e => e.1 == k) :=
    List.mem_filter.mpr ⟨he, by simp [hk]⟩
  have hne : l.filter (fun e => e.1 == k) ≠ [] := by
    intro hnil; rw [hnil] at hf; simp at hf
  rcases Option.ne_none_iff_exists'.mp
      (fun hcon => hne (List.getLast?_eq_none_iff.mp hcon)) with ⟨last, hlast⟩
  exact ⟨last.2, by simp [xpDict, hlast]⟩

theorem contains_of_xpDict_some (l : List (String × Int)) (k : String) (v : Int)
    (h : xpDict l k = some v) :
    (l.map (fun e => e.1)).contains k = true := by
  unfold xpDict at h
  cases hlast : (l.filter (fun e => e.1 == k)).getLast? with
  | none => rw [hlast] at h; simp at h
  | some e =>
      have he : e ∈ l.filter (fun e => e.1 == k) := List.mem_of_mem_getLast? hlast
      rcases List.mem_filter.mp he with ⟨hel, hk⟩
      refine List.contains_iff_exists_mem_beq.mpr ⟨e.1, List.mem_map.mpr ⟨e, hel, rfl⟩, ?_⟩
      have : e.1 = k := by simpa using hk
      simp [this]

/-! ### C9: incremental vs batch equivalence check -/

/-- C9 (counterexample): the incremental path (`check_answer` on the raw
stored answer) and the batch path (`_check_answer_flexible` on the
canonicalized answer) give different verdicts for user answer `"y"`,
stored answer `"B"`, options `["x","y"]`, single choice. -/
theorem check_paths_differ_cex :
    check_answer "y" "B" "single_choice" = false
    ∧ check_answer_flexible (some (PyVal.str "y"))
        (parse_correct_answer noJson (some (PyVal.str "B")) ["x", "y"])
        "single_choice" = true := by
  constructor
  · decide
  · decide

/-- C9 (amended): the two paths use different checks — `record_answer`
compares against the raw stored representation (and case-sensitively for
multiple choice), the batch grader against the canonicalized answer.  They
agree for single-choice and fill-blank questions whenever canonicalization
leaves the stored answer unchanged. -/
theorem check_paths_agree_on_literal :
    ∀ (jsonParse : String → Option PyVal) (user raw : String)
      (options : List String) (question_type : String),
      (question_type = "single_choice" ∨ question_type = "fill_blank") →
      parse_correct_answer jsonParse (some (PyVal.str raw)) options
        = some (PyVal.str raw) →
      check_answer user raw question_type
        = check_answer_flexible (some (PyVal.str user))
            (parse_correct_answer jsonParse (some (PyVal.str raw)) options)
            question_type := by
  intro jp user raw options t ht hp
  rw [hp]
  rcases ht with h | h <;> subst h <;>
    simp [check_answer, check_answer_flexible, pyStrOf]

/-- C9 witness: the amended agreement at a concrete input. -/
theorem check_paths_agree_on_literal_witness :
    check_answer "HELLO" "hello" "fill_blank"
      = check_answer_flexible (some (PyVal.str "HELLO"))
          (parse_correct_answer noJson (some (PyVal.str "hello")) [])
          "fill_blank" :=
  check_paths_agree_on_literal noJson "HELLO" "hello" [] "fill_blank"
    (Or.inr rfl) (by decide)

/-! ### C10: the comma rule of the answer normalizer -/

/-- C10 (counterexample): with no options list, a comma-containing raw
answer is returned as the trimmed literal, not split into parts. -/
theorem canonicalize_comma_no_options_cex :
    parse_correct_answer noJson (some (PyVal.str "A,C")) []
        = some (PyVal.str "A,C")
    ∧ parse_correct_answer noJson (some (PyVal.str "A,C")) []
        ≠ some (PyVal.list ["A", "C"]) := by
  constructor
  · decide
  · decide

/-- C10 (amended): the comma rule applies only when a non-empty options
list is provided; then the raw string is split on commas, each part
trimmed, single letters A–Z mapped to the indexed option and other parts
kept literal.  In particular
`canonicalize("A,C", ["class","Class","CLASS","CLAS"]) = ["class","CLASS"]`
and `canonicalize("B", opts) = opts[1]` for every list of at least two
options. -/
theorem canonicalize_comma_rule :
    (∀ (jsonParse : String → Option PyVal) (raw : String) (options : List String),
        options ≠ [] →
        pyStartsWith (pyStrip raw) '[' = false →
        pyStartsWith (pyStrip raw) (Char.ofNat 123) = false →
        isSingleLetter (pyStrip raw) = false →
        (pyStrip raw).data.contains ',' = true →
        parse_correct_answer jsonParse (some (PyVal.str raw)) options
          = some (PyVal.list ((pySplit (pyStrip raw) ',').map (fun part =>
              if isSingleLetter (pyStrip part) then
                letter_to_option (pyStrip part) options
              else pyStrip part))))
    ∧ parse_correct_answer noJson (some (PyVal.str "A,C"))
        ["class", "Class", "CLASS", "CLAS"] = some (PyVal.list ["class", "CLASS"])
    ∧ (∀ (jsonParse : String → Option PyVal) (a b : String) (rest : List String),
        parse_correct_answer jsonParse (some (PyVal.str "B")) (a :: b :: rest)
          = some (PyVal.str b)) := by
  refine ⟨?_, by decide, ?_⟩
  · intro jp raw options hopts hlb hlbrace hsl hc
    simp only [parse_correct_answer]
    rw [hlb, hlbrace]
    simp only [Bool.or_self, if_neg (by simp : ¬ (false = true))]
    unfold letterFormat
    rw [if_neg hopts, if_neg (by simp [hsl]), if_pos (by simpa using hc)]
    unfold convert_letters_to_options
    rw [if_neg hopts, List.map_map]
    refine congrArg (fun l => some (PyVal.list l)) (List.map_congr_left ?_)
    intro part _
    simp only [Function.comp]
    rw [pyStrip_idem]
  · intro jp a b rest
    simp only [parse_correct_answer]
    have hstrip : pyStrip "B" = "B" := by decide
    rw [hstrip]
    rw [show pyStartsWith "B" '[' = false from by decide,
      show pyStartsWith "B" (Char.ofNat 123) = false from by decide]
    simp only [Bool.or_self, if_neg (by simp : ¬ (false = true))]
    unfold letterFormat
    rw [if_neg (by simp : ¬ (a :: b :: rest = [])),
      if_pos (by decide : isSingleLetter "B" = true)]
    unfold letter_to_option
    have hdata : "B".data = ['B'] := by decide
    simp only [hdata]
    rw [if_pos]
    · norm_num [show ('B'.toUpper.toNat : Int) - 65 = 1 from by decide]
    · refine ⟨by decide, ?_⟩
      rw [show ('B'.toUpper.toNat : Int) - 65 = 1 from by decide]
      simp only [List.length_cons]
      push_cast
      omega

/-- C10 witness: the amended comma rule at a concrete input
(`"D , b"` with options, `D` mapped, `b` kept literal after trimming). -/
theorem canonicalize_comma_rule_witness :
    parse_correct_answer noJson (some (PyVal.str "A, x"))
        ["one", "two"]
      = some (PyVal.list ((pySplit (pyStrip "A, x") ',').map (fun part =>
          if isSingleLetter (pyStrip part) then
            letter_to_option (pyStrip part) ["one", "two"]
          else pyStrip part))) :=
  canonicalize_comma_rule.1 noJson "A, x" ["one", "two"] (by decide) (by decide)
    (by decide) (by decide) (by decide)

/-! ### C1: merge idempotence -/

/-- C1 (counterexample): `merge(P, P)` is not `P` when `P.hearts = 0` —
the `int(client.get('hearts', 5) or 5)` coercion turns the falsy 0 into 5. -/
theorem merge_self_hearts_zero_cex :
    (merge_progress heartsZeroSnapshot.toDict heartsZeroSnapshot.toDict).hearts = 5
    ∧ heartsZeroSnapshot.hearts = 0 ∧ (5 : Int) ≠ 0 := by
  refine ⟨rfl, rfl, by decide⟩

/-- C1 (amended): for every complete snapshot `P` whose `hearts`,
`maxHearts`, `currentChapter` and `dailyGoalMinutes` are non-zero (the four
fields whose falsy values are replaced by their defaults),
`merge(P, P) = P` on every field of the merge table — set-valued fields
compared as sets and map-valued fields as key lookups. -/
theorem merge_self_identity :
    ∀ P : FullProgress, P.hearts ≠ 0 → P.maxHearts ≠ 0 →
      P.currentChapter ≠ 0 → P.dailyGoalMinutes ≠ 0 →
      (merge_progress P.toDict P.toDict).totalXP = P.totalXP
      ∧ (merge_progress P.toDict P.toDict).totalReadingTime = P.totalReadingTime
      ∧ (merge_progress P.toDict P.toDict).hearts = P.hearts
      ∧ (merge_progress P.toDict P.toDict).maxHearts = P.maxHearts
      ∧ (merge_progress P.toDict P.toDict).currentChapter = P.currentChapter
      ∧ (merge_progress P.toDict P.toDict).currentSection = P.currentSection
      ∧ (merge_progress P.toDict P.toDict).dailyGoalMinutes = P.dailyGoalMinutes
      ∧ (merge_progress P.toDict P.toDict).streak = P.streak
      ∧ (merge_progress P.toDict P.toDict).lastReadDate = P.lastReadDate
      ∧ (merge_progress P.toDict P.toDict).chaptersCompleted
          = P.chaptersCompleted.toFinset
      ∧ (merge_progress P.toDict P.toDict).achievements = P.achievements.toFinset
      ∧ (merge_progress P.toDict P.toDict).wordsLearned = P.wordsLearned.toFinset
      ∧ (merge_progress P.toDict P.toDict).onboardingCompleted
          = P.onboardingCompleted
      ∧ (∀ k, (merge_progress P.toDict P.toDict).wrongQuestions k
          = wrongDict P.wrongQuestions k)
      ∧ (∀ k, (merge_progress P.toDict P.toDict).xpBySyllabus k
          = xpDict P.xpBySyllabus k) := by
  intro P hh hm hc hd
  have horint : ∀ x : Int, x ≠ 0 → ∀ d : Int, pyOrInt (some x) d = x := by
    intro x hx d; simp [pyOrInt, hx]
  refine ⟨?_, ?_, ?_, ?_, ?_, ?_, ?_, ?_, rfl, ?_, ?_, ?_, ?_, ?_, ?_⟩
  · simp [merge_progress, FullProgress.toDict, pyOrInt_zero]
  · simp [merge_progress, FullProgress.toDict, pyOrInt_zero]
  · simp [merge_progress, FullProgress.toDict, horint P.hearts hh]
  · simp [merge_progress, FullProgress.toDict, horint P.maxHearts hm]
  · simp [merge_progress, FullProgress.toDict, horint P.currentChapter hc]
  · simp [merge_progress, FullProgress.toDict, pyOrInt_zero]
  · simp [merge_progress, FullProgress.toDict, horint P.dailyGoalMinutes hd]
  · simp [merge_progress, FullProgress.toDict, pyOrInt_zero]
  · simp [merge_progress, FullProgress.toDict]
  · simp [merge_progress, FullProgress.toDict]
  · simp [merge_progress, FullProgress.toDict]
  · simp [merge_progress, FullProgress.toDict]
  · intro k
    simp only [merge_progress, FullProgress.toDict]
    cases h : wrongDict P.wrongQuestions k <;> simp [h]
  · intro k
    simp only [merge_progress, FullProgress.toDict]
    simp only [Option.getD_some]
    by_cases hk : ((P.xpBySyllabus.map (fun e => e.1)).contains k) = true
    · rcases xpDict_some_of_contains P.xpBySyllabus k hk with ⟨v, hv⟩
      rw [if_pos (by rw [hk, Bool.or_self]), hv]
      simp
    · have hnone : xpDict P.xpBySyllabus k = none := by
        cases hx : xpDict P.xpBySyllabus k with
        | none => rfl
        | some v => exact absurd (contains_of_xpDict_some P.xpBySyllabus k v hx) hk
      rw [if_neg, hnone]
      simpa using hk

/-- C1 witness: the amended idempotence at a concrete snapshot. -/
theorem merge_self_identity_witness :
    (merge_progress
        ({ heartsZeroSnapshot with hearts := 3 } : FullProgress).toDict
        ({ heartsZeroSnapshot with hearts := 3 } : FullProgress).toDict).hearts
      = ({ heartsZeroSnapshot with hearts := 3 } : FullProgress).hearts :=
  (merge_self_identity { heartsZeroSnapshot with hearts := 3 }
    (by decide) (by decide) (by decide) (by decide)).2.2.1

/-! ### C2: the "client wins" fields -/

/-- C2 (counterexample): a client `hearts` of 0 is not taken verbatim —
the merge stores 5. -/
theorem merge_client_hearts_zero_cex :
    (merge_progress { } { hearts := some 0 }).hearts = 5
    ∧ (5 : Int) ≠ 0 := ⟨rfl, by decide⟩

/-- C2 (amended): `streak`, `currentSection` and `lastReadDate` take the
client value (absent defaulting to 0 / `None`); `hearts`, `maxHearts`,
`currentChapter` and `dailyGoalMinutes` take the client value only when it
is present and non-zero, and otherwise fall back to 5, 5, 1 and 10
respectively. -/
theorem merge_client_wins_fields :
    ∀ server client : ProgressDict,
      (merge_progress server client).streak = client.streak.getD 0
      ∧ (merge_progress server client).currentSection
          = client.currentSection.getD 0
      ∧ (merge_progress server client).lastReadDate = client.lastReadDate
      ∧ (∀ x : Int, x ≠ 0 → client.hearts = some x →
          (merge_progress server client).hearts = x)
      ∧ (client.hearts = none ∨ client.hearts = some 0 →
          (merge_progress server client).hearts = 5)
      ∧ (∀ x : Int, x ≠ 0 → client.maxHearts = some x →
          (merge_progress server client).maxHearts = x)
      ∧ (client.maxHearts = none ∨ client.maxHearts = some 0 →
          (merge_progress server client).maxHearts = 5)
      ∧ (∀ x : Int, x ≠ 0 → client.currentChapter = some x →
          (merge_progress server client).currentChapter = x)
      ∧ (client.currentChapter = none ∨ client.currentChapter = some 0 →
          (merge_progress server client).currentChapter = 1)
      ∧ (∀ x : Int, x ≠ 0 → client.dailyGoalMinutes = some x →
          (merge_progress server client).dailyGoalMinutes = x)
      ∧ (client.dailyGoalMinutes = none ∨ client.dailyGoalMinutes = some 0 →
          (merge_progress server client).dailyGoalMinutes = 10) := by
  intro server client
  refine ⟨?_, ?_, rfl, ?_, ?_, ?_, ?_, ?_, ?_, ?_, ?_⟩
  · simp [merge_progress, pyOrInt_zero]
  · simp [merge_progress, pyOrInt_zero]
  all_goals
    first
      | (intro x hx hsome; simp [merge_progress, hsome, pyOrInt, hx])
      | (rintro (hnone | hzero) <;> simp [merge_progress, pyOrInt, *])

/-- C2 witness: a present non-zero client value is taken verbatim. -/
theorem merge_client_wins_fields_witness :
    (merge_progress { } { hearts := some 3 }).hearts = 3 :=
  (merge_client_wins_fields { } { hearts := some 3 }).2.2.2.1 3
    (by decide) rfl

/-! ### C3: fields outside the merge table on the sync path -/

/-- C3: the `/sync` path does not carry fields outside the merge table
through — saving the merged snapshot writes each such column's default,
wiping the server's values (evaluated at the failing input). -/
theorem sync_wipes_untabled_fields :
    (sync_saved_progress serverWithRewards { hearts := some 5 }).firstPassedQuizzes = []
    ∧ (sync_saved_progress serverWithRewards { hearts := some 5 }).coursesCompleted = []
    ∧ (sync_saved_progress serverWithRewards { hearts := some 5 }).quizzesPassed = 0
    ∧ (sync_saved_progress serverWithRewards { hearts := some 5 }).quizStreak = 0
    ∧ (sync_saved_progress serverWithRewards { hearts := some 5 }).lastLoginRewardDate
        = none
    ∧ (sync_saved_progress serverWithRewards { hearts := some 5 }).firstLoginRewardClaimed
        = false
    ∧ serverWithRewards.firstPassedQuizzes = some ["survey-1"]
    ∧ serverWithRewards.quizzesPassed = some 4 :=
  ⟨rfl, rfl, rfl, rfl, rfl, rfl, rfl, rfl⟩

/-! ### C5: badge issuance -/

/-- C5 (counterexample): on a score improvement the stored `percentage` is
`int(percentage)` — the truncation of the given value, not the value
itself (75.7 is stored as 75). -/
theorem badge_percentage_truncated_cex :
    (issue_or_update_badge (some ⟨10, 20, 50, 3⟩) 15 20 (757/10)).badge.percentage = 75
    ∧ ((75 : Int) : ℚ) ≠ 757/10 := by
  constructor
  · simp only [issue_or_update_badge, if_pos (by norm_num : (15 : Int) > 10)]
    show pyInt (757/10) = 75
    rw [pyInt, if_pos (by norm_num)]
    rw [Int.floor_eq_iff]
    norm_num
  · norm_num

/-- C5 (amended): on an existing badge, `attempt_count` rises by exactly 1
and `isNew = false`; a strictly higher score overwrites `score` and
`max_score` with the given values and `percentage` with the truncation
`int(percentage)`, with `scoreUpdated = true`; otherwise all three score
fields are unchanged and `scoreUpdated = false`.  A first call creates the
badge with `attempt_count = 1`, `isNew = true`, `scoreUpdated = true`. -/
theorem badge_update_policy :
    (∀ (old : Badge) (score max_score : Int) (percentage : ℚ),
        (issue_or_update_badge (some old) score max_score percentage).badge.attempt_count
            = old.attempt_count + 1
        ∧ (issue_or_update_badge (some old) score max_score percentage).is_new = false
        ∧ (score > old.score →
            (issue_or_update_badge (some old) score max_score percentage).badge.score
                = score
            ∧ (issue_or_update_badge (some old) score max_score percentage).badge.max_score
                = max_score
            ∧ (issue_or_update_badge (some old) score max_score percentage).badge.percentage
                = pyInt percentage
            ∧ (issue_or_update_badge (some old) score max_score percentage).score_updated
                = true)
        ∧ (¬ score > old.score →
            (issue_or_update_badge (some old) score max_score percentage).badge.score
                = old.score
            ∧ (issue_or_update_badge (some old) score max_score percentage).badge.max_score
                = old.max_score
            ∧ (issue_or_update_badge (some old) score max_score percentage).badge.percentage
                = old.percentage
            ∧ (issue_or_update_badge (some old) score max_score percentage).score_updated
                = false))
    ∧ (∀ (score max_score : Int) (percentage : ℚ),
        (issue_or_update_badge none score max_score percentage).badge.attempt_count = 1
        ∧ (issue_or_update_badge none score max_score percentage).is_new = true
        ∧ (issue_or_update_badge none score max_score percentage).score_updated = true
        ∧ (issue_or_update_badge none score max_score percentage).badge.score = score
        ∧ (issue_or_update_badge none score max_score percentage).badge.max_score
            = max_score
        ∧ (issue_or_update_badge none score max_score percentage).badge.percentage
            = pyInt percentage) := by
  constructor
  · intro old score max_score percentage
    by_cases h : score > old.score <;>
      simp [issue_or_update_badge, h]
  · intro score max_score percentage
    simp [issue_or_update_badge]

/-- C5 witness: a repeat call with a higher score at concrete values. -/
theorem badge_update_policy_witness :
    (issue_or_update_badge (some ⟨10, 20, 50, 3⟩) 15 20 75).badge.score = 15 :=
  ((badge_update_policy.1 ⟨10, 20, 50, 3⟩ 15 20 75).2.2.1 (by decide)).1

/-! ### C7: finalize -/

/-- C7: `calculate_final_score` sums only the responses whose attempt
matches (`total_score`, `correct_count`, `duration_seconds`), while
`max_score` sums the weights of the survey's full question bank —
independent of which questions were answered in the attempt — and
`percentage` is `round(total/max*100, 2)` for non-zero `max_score`, else 0. -/
theorem finalize_attempt_scoping :
    ∀ (responses : List ResponseRow) (questions : List QuestionRow) (n : Int),
      (calculate_final_score responses questions n).total_score
          = ((responses.filter (fun r => r.attempt.getD 1 == n)).map
              (fun r => r.score_earned.getD 0)).sum
      ∧ (calculate_final_score responses questions n).correct_count
          = ((responses.filter (fun r => r.attempt.getD 1 == n)).countP
              (fun r => r.is_correct) : Int)
      ∧ (calculate_final_score responses questions n).duration_seconds
          = ((responses.filter (fun r => r.attempt.getD 1 == n)).map
              (fun r => r.time_spent_seconds.getD 0)).sum
      ∧ (calculate_final_score responses questions n).max_score
          = (questions.map (fun q => q.score.getD 5)).sum
      ∧ (∀ (responses2 : List ResponseRow) (n2 : Int),
          (calculate_final_score responses questions n).max_score
            = (calculate_final_score responses2 questions n2).max_score)
      ∧ (calculate_final_score responses questions n).percentage
          = (if (calculate_final_score responses questions n).max_score ≠ 0 then
              pyRound2 (((calculate_final_score responses questions n).total_score : ℚ)
                / ((calculate_final_score responses questions n).max_score : ℚ) * 100)
            else 0) :=
  fun _ _ _ => ⟨rfl, rfl, rfl, rfl, fun _ _ => rfl, rfl⟩

/-! ### C4: whole-quiz grading -/

theorem qmapLookup_mem (questions : List QuestionRow) (qid : String)
    (q : QuestionRow) (h : qmapLookup questions qid = some q) : q ∈ questions := by
  have := List.mem_of_mem_getLast? h
  exact (List.mem_filter.mp this).1

theorem gradeLoop_total_eq_five_mul (jsonParse : String → Option PyVal)
    (questions : List QuestionRow)
    (h5 : ∀ q ∈ questions, q.score.getD 5 = 5) :
    ∀ answers : List AnswerItem,
      (gradeLoop jsonParse questions answers).1
        = 5 * ((gradeLoop jsonParse questions answers).2.countP
            (fun e => e.is_correct) : Int) := by
  intro answers
  induction answers with
  | nil => simp [gradeLoop]
  | cons a rest ih =>
      cases ha : a.question_id with
      | none => simpa [gradeLoop, ha] using ih
      | some qid =>
          cases hq : qmapLookup questions qid with
          | none => simpa [gradeLoop, ha, hq] using ih
          | some q =>
              have hw : q.score.getD 5 = 5 :=
                h5 q (qmapLookup_mem questions qid q hq)
              by_cases hic : check_answer_flexible a.answer
                  (parse_correct_answer jsonParse q.correct_answer q.options)
                  q.question_type = true
              · simp [gradeLoop, ha, hq, hic, hw, List.countP_cons, ih]
                ring
              · simp only [Bool.not_eq_true] at hic
                simp [gradeLoop, ha, hq, hic, List.countP_cons, ih]

/-- C4 (counterexample): a survey whose single question has weight 0 and
whose `pass_score` is 0 grades an empty answer set to `max_score = 0`,
`percentage = 0` and `passed = true` — not `passed = false` as claimed. -/
theorem grade_quiz_zero_max_passes_cex :
    (grade_quiz noJson [{ question_id := "q1", score := some 0 }]
        (some { pass_score := some 0 }) []).map
        (fun r => (r.max_score, r.percentage, r.passed)) = some (0, 0, true) := by
  decide

/-- C4 (amended): for every graded submission, `total_score` is
`5 × count(correct)` whenever every question weight is the fixed 5 (as
`add_questions` always writes); `percentage` is `round(total/max*100, 2)`
when `max_score > 0` and 0 otherwise; `passed = (percentage >= pass_score)`;
and when `max_score = 0` the percentage is 0 and `passed` is
`(0 >= pass_score)` — true, not false, for a survey whose `pass_score` is
0 or negative. -/
theorem grade_quiz_scoring :
    ∀ (jsonParse : String → Option PyVal) (questions : List QuestionRow)
      (survey : Option SurveyRow) (answers : List AnswerItem) (r : GradeResult),
      grade_quiz jsonParse questions survey answers = some r →
      ((∀ q ∈ questions, q.score.getD 5 = 5) →
        r.total_score = 5 * (r.results.countP (fun e => e.is_correct) : Int))
      ∧ r.max_score = (questions.map (fun q => q.score.getD 5)).sum
      ∧ r.percentage = (if r.max_score > 0 then
            pyRound2 ((r.total_score : ℚ) / (r.max_score : ℚ) * 100) else 0)
      ∧ r.passed = decide ((effPassScore survey : ℚ) ≤ r.percentage)
      ∧ (r.max_score = 0 → r.percentage = 0
          ∧ r.passed = decide (effPassScore survey ≤ 0)) := by
  intro jsonParse questions survey answers r hr
  rw [grade_quiz] at hr
  by_cases hq : questions = []
  · rw [if_pos hq] at hr; cases hr
  · rw [if_neg hq] at hr
    have hrr := (Option.some_injective _ hr).symm
    subst hrr
    refine ⟨?_, rfl, rfl, rfl, ?_⟩
    · intro h5
      exact gradeLoop_total_eq_five_mul jsonParse questions h5 answers
    · intro hmax
      have hm0 : (List.map (fun q => q.score.getD 5) questions).sum = 0 := hmax
      refine ⟨?_, ?_⟩
      · show (if (List.map (fun q => q.score.getD 5) questions).sum > 0 then
            pyRound2 (((gradeLoop jsonParse questions answers).1 : ℚ)
              / (((List.map (fun q => q.score.getD 5) questions).sum : Int) : ℚ) * 100)
          else 0) = 0
        rw [hm0]
        simp
      · show decide ((if (List.map (fun q => q.score.getD 5) questions).sum > 0 then
              pyRound2 (((gradeLoop jsonParse questions answers).1 : ℚ)
                / (((List.map (fun q => q.score.getD 5) questions).sum : Int) : ℚ) * 100)
            else 0) ≥ ((effPassScore survey : Int) : ℚ))
          = decide (effPassScore survey ≤ 0)
        rw [hm0, if_neg (by omega : ¬ (0 : Int) > 0), decide_eq_decide]
        constructor
        · intro h; exact_mod_cast h
        · intro h; exact_mod_cast h

/-- C4 witness: the amended statement at a concrete survey (one default
weight-5 question, no answers). -/
theorem grade_quiz_scoring_witness :
    ((grade_quiz noJson [{ question_id := "q1" }] none []).map
        (fun r => r.total_score))
      = ((grade_quiz noJson [{ question_id := "q1" }] none []).map
        (fun r => 5 * (r.results.countP (fun e => e.is_correct) : Int))) := by
  cases hg : grade_quiz noJson [{ question_id := "q1" }] none [] with
  | none => exact absurd hg (by decide)
  | some r =>
      have h := (grade_quiz_scoring noJson [{ question_id := "q1" }] none [] r hg).1
        (by decide)
      simp [h]

/-! ### C6: certificate issuance fails with no side effect -/

/-- C6: when the syllabus does not exist, has no linked quizzes, or has no
eligible participant (non-zero syllabus XP and every linked quiz
first-passed), the batch issuance returns failure and leaves the
Certificates sheet untouched — nothing inserted, nothing deleted. -/
theorem cert_issuance_fail_no_side_effect :
    ∀ (getSyllabus : String → Option SyllabusRow)
      (getCourse : String → Option CourseRow)
      (all_progress : List ProgressRow) (all_scores : List ScoreRec)
      (questionsFor : String → List QuestionRow)
      (userName : String → Option String) (userCompany : String → String)
      (certs : List Certificate) (syllabus_id issued_by : String),
      (getSyllabus syllabus_id = none
        ∨ (∀ syl, getSyllabus syllabus_id = some syl →
            get_syllabus_course_quizzes getCourse syl = [])
        ∨ (∀ syl, getSyllabus syllabus_id = some syl →
            ¬ ∃ p ∈ all_progress,
              (xpDict p.xpBySyllabus syllabus_id).getD 0 ≠ 0
              ∧ check_user_passed_all_quizzes
                  (get_syllabus_course_quizzes getCourse syl) p = true)) →
      (issue_certificates_for_syllabus getSyllabus getCourse all_progress
          all_scores questionsFor userName userCompany certs syllabus_id
          issued_by).1.success = false
      ∧ (issue_certificates_for_syllabus getSyllabus getCourse all_progress
          all_scores questionsFor userName userCompany certs syllabus_id
          issued_by).2 = certs := by
  intro getSyllabus getCourse all_progress all_scores questionsFor userName
    userCompany certs syllabus_id issued_by h
  cases hs : getSyllabus syllabus_id with
  | none => simp [issue_certificates_for_syllabus, hs]
  | some syl =>
      rcases h with h | h | h
      · rw [hs] at h; cases h
      · have hq := h syl hs
        simp [issue_certificates_for_syllabus, hs, hq]
      · have hne := h syl hs
        have hpart : eligible_participants syllabus_id
            (get_syllabus_course_quizzes getCourse syl) all_progress all_scores
            = [] := by
          rw [eligible_participants, List.filterMap_eq_nil_iff]
          intro p hp
          by_cases hxp : (xpDict p.xpBySyllabus syllabus_id).getD 0 > 0
          · by_cases hpass : check_user_passed_all_quizzes
                (get_syllabus_course_quizzes getCourse syl) p = true
            · exact absurd ⟨p, hp, by omega, hpass⟩ hne
            · simp only [Bool.not_eq_true] at hpass
              simp [hxp, hpass]
          · simp [hxp]
        by_cases hq : get_syllabus_course_quizzes getCourse syl = []
        · simp [issue_certificates_for_syllabus, hs, hq]
        · simp [issue_certificates_for_syllabus, hs, hq, hpart]

/-- C6 witness: a missing syllabus leaves an existing certificate of
another syllabus in place and reports failure. -/
theorem cert_issuance_fail_no_side_effect_witness :
    (issue_certificates_for_syllabus (fun _ => none) (fun _ => none) [] []
        (fun _ => []) (fun _ => none) (fun _ => "") [otherCert] "syl-1"
        "admin").1.success = false
    ∧ (issue_certificates_for_syllabus (fun _ => none) (fun _ => none) [] []
        (fun _ => []) (fun _ => none) (fun _ => "") [otherCert] "syl-1"
        "admin").2 = [otherCert] :=
  cert_issuance_fail_no_side_effect (fun _ => none) (fun _ => none) [] []
    (fun _ => []) (fun _ => none) (fun _ => "") [otherCert] "syl-1" "admin"
    (Or.inl rfl)

/-! ### C8: per-survey leaderboard -/

theorem lbBetter_irrefl (s : ScoreRec) : lbBetter s s = false := by
  simp [lbBetter]

theorem lbBetter_shift (r v s : ScoreRec) (h1 : lbBetter s v = true)
    (h2 : lbBetter r v = false) : lbBetter r s = false := by
  simp only [lbBetter, Bool.or_eq_true, Bool.and_eq_true, decide_eq_true_eq,
    beq_iff_eq, Bool.or_eq_false_iff, Bool.and_eq_false_iff,
    decide_eq_false_iff_not, beq_eq_false_iff_ne] at *
  omega

theorem updateBest_inv (seen : List ScoreRec) (acc : List (String × ScoreRec))
    (s : ScoreRec) (h : BestInv seen acc) :
    BestInv (seen ++ [s]) (updateBest acc s) := by
  obtain ⟨hnd, hent, hcov⟩ := h
  by_cases hany : acc.any (fun kv => kv.1 == s.user_id) = true
  · -- the user already has an entry: in-place update
    rw [updateBest, if_pos hany]
    have hkeys : (acc.map (fun kv =>
        if kv.1 == s.user_id && lbBetter s kv.2 then (kv.1, s) else kv)).map
          (fun kv => kv.1) = acc.map (fun kv => kv.1) := by
      rw [List.map_map]
      refine List.map_congr_left ?_
      intro kv _
      by_cases hc : (kv.1 == s.user_id && lbBetter s kv.2) = true
      · simp only [Function.comp]; rw [if_pos hc]
      · simp only [Function.comp]; rw [if_neg hc]
    refine ⟨by rw [hkeys]; exact hnd, ?_, ?_⟩
    · intro kv' hkv'
      rcases List.mem_map.mp hkv' with ⟨kv, hkv, hf⟩
      obtain ⟨hu, hm, hdom⟩ := hent kv hkv
      by_cases hc : (kv.1 == s.user_id && lbBetter s kv.2) = true
      · rw [if_pos hc] at hf
        have hck : (kv.1 == s.user_id) = true ∧ lbBetter s kv.2 = true := by
          simpa using hc
        have hk' : kv.1 = s.user_id := by simpa using hck.1
        refine ⟨by rw [← hf]; exact hk'.symm, ?_, ?_⟩
        · rw [← hf]; exact List.mem_append_right _ (by simp)
        · intro r hr hru
          rw [← hf] at hru ⊢
          rcases List.mem_append.mp hr with hr | hr
          · exact lbBetter_shift r kv.2 s hck.2 (hdom r hr hru)
          · have hrs : r = s := by simpa using hr
            rw [hrs]
            exact lbBetter_irrefl s
      · rw [if_neg hc] at hf
        rw [← hf]
        refine ⟨hu, List.mem_append_left _ hm, ?_⟩
        intro r hr hru
        rcases List.mem_append.mp hr with hr | hr
        · exact hdom r hr hru
        · have hrs : r = s := by simpa using hr
          rw [hrs]
          have hk : (kv.1 == s.user_id) = true := by
            rw [hrs] at hru; simp [← hru]
          rcases (by simpa using hc :
              ¬ ((kv.1 == s.user_id) = true ∧ lbBetter s kv.2 = true)) with hc'
          by_cases hb : lbBetter s kv.2 = true
          · exact absurd ⟨hk, hb⟩ hc'
          · simpa using hb
    · intro r hr
      rw [hkeys]
      rcases List.mem_append.mp hr with hr | hr
      · exact hcov r hr
      · have hrs : r = s := by simpa using hr
        rw [hrs]
        rcases List.any_eq_true.mp hany with ⟨kv, hkv, hk⟩
        have hk' : kv.1 = s.user_id := by simpa using hk
        rw [← hk']
        exact List.mem_map.mpr ⟨kv, hkv, rfl⟩
  · -- new user: append
    rw [updateBest, if_neg hany]
    have hnotkey : s.user_id ∉ acc.map (fun kv => kv.1) := by
      intro hmem
      rcases List.mem_map.mp hmem with ⟨kv, hkv, hk⟩
      exact hany (List.any_eq_true.mpr ⟨kv, hkv, by simp [hk]⟩)
    refine ⟨?_, ?_, ?_⟩
    · rw [List.map_append]
      simp only [List.map_cons, List.map_nil]
      rw [List.nodup_append]
      exact ⟨hnd, List.nodup_singleton _, by simpa using hnotkey⟩
    · intro kv' hkv'
      rcases List.mem_append.mp hkv' with hkv | hkv
      · obtain ⟨hu, hm, hdom⟩ := hent kv' hkv
        refine ⟨hu, List.mem_append_left _ hm, ?_⟩
        intro r hr hru
        rcases List.mem_append.mp hr with hr | hr
        · exact hdom r hr hru
        · have hrs : r = s := by simpa using hr
          rw [hrs] at hru
          exact absurd (hru ▸ List.mem_map.mpr ⟨kv', hkv, rfl⟩) hnotkey
      · have hkv2 : kv' = (s.user_id, s) := by simpa using hkv
        rw [hkv2]
        refine ⟨rfl, List.mem_append_right _ (by simp), ?_⟩
        intro r hr hru
        have hru' : r.user_id = s.user_id := hru
        rcases List.mem_append.mp hr with hr | hr
        · exact absurd (hru' ▸ hcov r hr) hnotkey
        · have hrs : r = s := by simpa using hr
          rw [hrs]
          exact lbBetter_irrefl s
    · intro r hr
      rw [List.map_append]
      rcases List.mem_append.mp hr with hr | hr
      · exact List.mem_append_left _ (hcov r hr)
      · have hrs : r = s := by simpa using hr
        rw [hrs]
        simp

theorem user_best_inv_aux :
    ∀ (rows : List ScoreRec) (seen : List ScoreRec)
      (acc : List (String × ScoreRec)), BestInv seen acc →
      BestInv (seen ++ rows) (rows.foldl updateBest acc) := by
  intro rows
  induction rows with
  | nil => intro seen acc h; simpa using h
  | cons r rs ih =>
      intro seen acc h
      have h1 := updateBest_inv seen acc r h
      have h2 := ih (seen ++ [r]) (updateBest acc r) h1
      simpa [List.append_assoc] using h2

theorem user_best_inv (rows : List ScoreRec) :
    BestInv rows (user_best rows) := by
  have := user_best_inv_aux rows [] [] ⟨by simp, by simp, by simp⟩
  simpa [user_best] using this

theorem mem_rankEntries (users : String → Option UserRec) :
    ∀ (n : Nat) (l : List ScoreRec) (e : LBEntry),
      e ∈ rankEntries users n l →
      ∃ s ∈ l, e.user_id = s.user_id ∧ e.score = s.total_score
        ∧ e.duration_seconds = s.duration_seconds
        ∧ e.max_score = s.max_score ∧ e.correct_count = s.correct_count := by
  intro n l
  induction l generalizing n with
  | nil => intro e he; simp [rankEntries] at he
  | cons s t ih =>
      intro e he
      rcases (by simpa [rankEntries] using he : _ ∨ e ∈ rankEntries users (n + 1) t)
        with he' | he'
      · subst he'
        exact ⟨s, by simp, rfl, rfl, rfl, rfl, rfl⟩
      · rcases ih (n + 1) e he' with ⟨x, hx, hprops⟩
        exact ⟨x, List.mem_cons_of_mem _ hx, hprops⟩

theorem rankEntries_map_uid (users : String → Option UserRec) :
    ∀ (n : Nat) (l : List ScoreRec),
      (rankEntries users n l).map (fun e => e.user_id)
        = l.map (fun s => s.user_id) := by
  intro n l
  induction l generalizing n with
  | nil => simp [rankEntries]
  | cons s t ih => simp [rankEntries, ih]

theorem rankEntries_get_rank (users : String → Option UserRec) :
    ∀ (l : List ScoreRec) (n i : Nat) (h : i < (rankEntries users n l).length),
      ((rankEntries users n l).get ⟨i, h⟩).rank = n + i + 1 := by
  intro l
  induction l with
  | nil => intro n i h; simp [rankEntries] at h
  | cons s t ih =>
      intro n i h
      cases i with
      | zero => rfl
      | succ j =>
          have hj : j < (rankEntries users (n + 1) t).length := by
            simpa [rankEntries] using h
          have := ih (n + 1) j hj
          simpa [rankEntries, Nat.add_assoc, Nat.add_comm, Nat.add_left_comm]
            using this

theorem rankEntries_pairwise (users : String → Option UserRec) :
    ∀ (n : Nat) (l : List ScoreRec), l.Pairwise lbRel →
      (rankEntries users n l).Pairwise (fun a b =>
        a.score > b.score ∨ (a.score = b.score
          ∧ a.duration_seconds ≤ b.duration_seconds)) := by
  intro n l
  induction l generalizing n with
  | nil => intro _; simp [rankEntries]
  | cons s t ih =>
      intro hp
      rcases List.pairwise_cons.mp hp with ⟨hhead, htail⟩
      rw [rankEntries]
      refine List.pairwise_cons.mpr ⟨?_, ih (n + 1) htail⟩
      intro e he
      rcases mem_rankEntries users (n + 1) t e he with
        ⟨x, hx, _, hsc, hdur, _, _⟩
      have := hhead x hx
      rw [lbRel] at this
      rw [hsc, hdur]
      simpa using this

/-- C8: the per-survey leaderboard holds at most one entry per user — that
user's best record (higher total, then lower duration) — ordered by
descending total score with ties broken by ascending duration, ranks
assigned 1..N in order; and on two equal-total records with durations 45s
and 30s the 30s record places first. -/
theorem get_leaderboard_spec :
    (∀ (rows : List ScoreRec) (users : String → Option UserRec)
        (survey_id : String) (limit : Nat),
      ((get_leaderboard rows users survey_id limit).map
          (fun e => e.user_id)).Nodup
      ∧ (∀ e ∈ get_leaderboard rows users survey_id limit,
          (∃ s ∈ rows, s.survey_id = survey_id ∧ s.user_id = e.user_id
            ∧ e.score = s.total_score
            ∧ e.duration_seconds = s.duration_seconds)
          ∧ ∀ r ∈ rows, r.survey_id = survey_id → r.user_id = e.user_id →
              (e.score > r.total_score ∨ (e.score = r.total_score
                ∧ e.duration_seconds ≤ r.duration_seconds)))
      ∧ (get_leaderboard rows users survey_id limit).Pairwise (fun a b =>
          a.score > b.score ∨ (a.score = b.score
            ∧ a.duration_seconds ≤ b.duration_seconds))
      ∧ (∀ (i : Nat) (h : i < (get_leaderboard rows users survey_id limit).length),
          ((get_leaderboard rows users survey_id limit).get ⟨i, h⟩).rank = i + 1))
    ∧ (get_leaderboard tieRows (fun _ => none) "s1" 100).map
        (fun e => (e.user_id, e.duration_seconds, e.rank))
        = [("bob", 30, 1), ("alice", 45, 2)] := by
  refine ⟨?_, by decide⟩
  intro rows users survey_id limit
  obtain ⟨hnd, hent, _⟩ :=
    user_best_inv (rows.filter (fun r => r.survey_id == survey_id))
  have hvalmap : (user_best (rows.filter (fun r => r.survey_id == survey_id))).map
        (fun kv => kv.2.user_id)
      = (user_best (rows.filter (fun r => r.survey_id == survey_id))).map
        (fun kv => kv.1) :=
    List.map_congr_left (fun kv hkv => (hent kv hkv).1)
  have hperm := List.perm_insertionSort lbRel
    ((user_best (rows.filter (fun r => r.survey_id == survey_id))).map
      (fun kv => kv.2))
  refine ⟨?_, ?_, ?_, ?_⟩
  · -- no user appears twice
    rw [get_leaderboard, rankEntries_map_uid]
    have hnd2 : (((user_best (rows.filter (fun r => r.survey_id == survey_id))).map
        (fun kv => kv.2)).map (fun s => s.user_id)).Nodup := by
      rw [List.map_map]
      exact hvalmap ▸ hnd
    have hnd3 := ((hperm.map (fun s => s.user_id)).nodup_iff).mpr hnd2
    rw [List.map_take]
    exact List.Pairwise.sublist (List.take_sublist _ _) hnd3
  · -- each entry is its user's best record for the survey
    intro e he
    simp only [get_leaderboard] at he
    rcases mem_rankEntries users 0 _ e he with ⟨s, hs, huid, hsc, hdur, _, _⟩
    have hs2 : s ∈ List.insertionSort lbRel
        ((user_best (rows.filter (fun r => r.survey_id == survey_id))).map
          (fun kv => kv.2)) := List.mem_of_mem_take hs
    have hs3 := hperm.mem_iff.mp hs2
    rcases List.mem_map.mp hs3 with ⟨kv, hkv, hkvs⟩
    obtain ⟨hu, hm, hdom⟩ := hent kv hkv
    rw [hkvs] at hu hm hdom
    rcases List.mem_filter.mp hm with ⟨hmem, hsv⟩
    constructor
    · exact ⟨s, hmem, by simpa using hsv, by rw [huid], hsc, hdur⟩
    · intro r hr hrsv hru
      have hrf : r ∈ rows.filter (fun rr => rr.survey_id == survey_id) :=
        List.mem_filter.mpr ⟨hr, by simp [hrsv]⟩
      have := hdom r hrf (by rw [hru, huid, hu])
      simp only [lbBetter, Bool.or_eq_false_iff, Bool.and_eq_false_iff,
        decide_eq_false_iff_not, beq_eq_false_iff_ne] at this
      rw [hsc, hdur]
      omega
  · -- sorted by descending total, ascending duration
    rw [get_leaderboard]
    refine rankEntries_pairwise users 0 _ ?_
    exact List.Pairwise.sublist (List.take_sublist _ _)
      (List.sorted_insertionSort lbRel _)
  · -- ranks are 1..N in order
    intro i h
    have h' : i < (rankEntries users 0
        ((List.insertionSort lbRel
          ((user_best (rows.filter (fun r => r.survey_id == survey_id))).map
            (fun kv => kv.2))).take limit)).length := h
    have hr := rankEntries_get_rank users
      ((List.insertionSort lbRel
          ((user_best (rows.filter (fun r => r.survey_id == survey_id))).map
            (fun kv => kv.2))).take limit) 0 i h'
    simpa using hr

/-- C8 witness: the first entry of a concrete leaderboard carries rank 1
(via the general rank clause). -/
theorem get_leaderboard_spec_witness :
    ((get_leaderboard tieRows (fun _ => none) "s1" 100).get
        ⟨0, by decide⟩).rank = 1 :=
  (get_leaderboard_spec.1 tieRows (fun _ => none) "s1" 100).2.2.2 0 (by decide)

end TrainPMA
